import Mathlib

/-!
# Verification of the OCL station decoder (`getOCLStationData.c`)

Shallow embedding of the per-station decoder of the `get_wod98_ssps`
repository (file `getOCLStationData.c`) together with proofs about the
claims of its specification.

Modelling conventions, stated once here:

* The input stream (`FILE *fp_in`) is a `List Char`; reading consumes from
  the front.  An unexpected end-of-stream inside `getIntDigits` makes the C
  program `exit(1)`; this fatal abort is modelled by the decoder returning
  `none`.
* C `long int` values are modelled as `Int`.  The parsed numbers in this
  format have at most nine digits, so no overflow arises on the modelled
  paths.
* C `double` values are modelled as `Option ℚ`: `none` models IEEE NaN
  (the code produces NaN via its `nan()` helper for "missing" fields),
  `some q` models an ordinary value.  All comparisons follow IEEE
  semantics: any comparison involving NaN is false.  The decimal values
  appearing in this format (at most nine significant digits) are mapped
  to `double` injectively and monotonically, so modelling them as exact
  rationals preserves every comparison the code performs.
* `(long int) nan()` is undefined behaviour in C; on the targeted
  platforms it yields `LONG_MIN`, modelled by the constant `nanLong`.
* A value that the C code leaves indeterminate (an uninitialised local, or
  a struct slot untouched because a read failed with
  `UNSPECIFIED_PROBLEM`) is modelled by the fixed placeholders `uninitLong`
  / `staleQ`.  No claim below depends on these placeholder values.
* `long int` arguments passed to the `int numDigits` parameter of
  `getIntDigits` are narrowed to 32 bits (`cIntOfLong`), as on the
  targeted ILP32/LP64 platforms.
-/

/-- Exit statuses from `ocl.h`: `SUCCESSFUL 0`, `UNSPECIFIED_PROBLEM 1`,
`ZERO_LENGTH_FIELD 2`, `SKIPPED 3`. -/
inductive Status where
  | successful
  | unspecifiedProblem
  | zeroLengthField
  | skipped
deriving DecidableEq

/-- `#define MAX_VARS 10` from `ocl.h`. -/
def MAX_VARS : Int := 10

/-- `#define MAX_LEVELS 6000` from `ocl.h`. -/
def MAX_LEVELS : Int := 6000

/-- Model of `(long int) nan()`: undefined behaviour in C, `LONG_MIN` on the
targeted platforms. -/
def nanLong : Int := -(2 ^ 63)

/-- Placeholder for a `long int` whose value the C program leaves
indeterminate (uninitialised local variables, slots skipped by a failed
`sscanf`).  No theorem below depends on this value. -/
def uninitLong : Int := 0

/-- Placeholder for a `double` whose value the C program leaves
indeterminate.  No theorem below depends on this value. -/
def staleQ : Option ℚ := none

/-- Narrowing a `long int` to the `int numDigits` parameter of
`getIntDigits` (32-bit `int` on the targeted platforms). -/
def cIntOfLong (x : Int) : Int := (x + 2 ^ 31) % 2 ^ 32 - 2 ^ 31

/-- A line-terminator byte: the reading loops skip `'\n'` and `'\r'`
without counting them as content. -/
def isNl (c : Char) : Bool := c = '\n' ∨ c = '\r'

/-- Read one content (non-line-terminator) character, consuming any
line terminators before it; `none` models hitting end-of-file. -/
def readNonNl : List Char → Option (Char × List Char)
  | [] => none
  | c :: t => if isNl c then readNonNl t else some (c, t)

/-- Read `n` content characters (the loop body of `getIntDigits`);
`none` models the fatal `exit(1)` on EOF. -/
def readContentChars : Nat → List Char → Option (List Char × List Char)
  | 0, l => some ([], l)
  | n + 1, l =>
    match readNonNl l with
    | none => none
    | some (c, t) =>
      match readContentChars n t with
      | none => none
      | some (cs, t1) => some (c :: cs, t1)

/-- The decimal value of a digit string (how `sscanf("%ld")` folds the
digits it accepts). -/
def digitsToNat (cs : List Char) : Nat :=
  cs.foldl (fun a c => a * 10 + (c.toNat - 48)) 0

/-- Model of `sscanf(valueStr, "%ld", value)`: skip blanks, accept an
optional minus sign and a maximal digit run; on a matching failure the
destination keeps its previous content `prev`. -/
def parseLd (cs : List Char) (prev : Int) : Int :=
  let cs1 := cs.dropWhile (fun c => c = ' ' ∨ c = '\t')
  if cs1.head? = some '-' then
    if cs1.tail.takeWhile Char.isDigit ≠ [] then
      -(digitsToNat (cs1.tail.takeWhile Char.isDigit) : Int)
    else prev
  else
    if cs1.takeWhile Char.isDigit ≠ [] then
      (digitsToNat (cs1.takeWhile Char.isDigit) : Int)
    else prev

/-- Embedding of `getIntDigits` (lines 630–661): consume `numDigits`
content characters, skipping line terminators; classify by the terminal
character.  Returns `(status, value, remaining input)`; `none` models the
fatal `exit(1)` on EOF.  `prev` is the current content of `*value`
(left in place on the `UNSPECIFIED_PROBLEM` path). -/
def getIntDigits (numDigits : Int) (prev : Int) (inp : List Char) :
    Option (Status × Int × List Char) :=
  if numDigits ≤ 0 then
    -- the loop body does not run and `nextch` keeps its initial 0
    if numDigits = 0 then some (.zeroLengthField, nanLong, inp)
    else some (.unspecifiedProblem, prev, inp)
  else
    match readContentChars numDigits.toNat inp with
    | none => none
    | some (cs, rest) =>
      if (cs.getLastD ' ').isDigit then
        some (.successful, parseLd cs prev, rest)
      else if numDigits = 1 ∧ cs.getLastD ' ' = '-' then
        some (.zeroLengthField, nanLong, rest)
      else
        some (.unspecifiedProblem, prev, rest)

/-- Embedding of `getVarlenIntField` (lines 669–692).  Arguments: current
content of `*value` (`prev`), current `*bytesLeftInStation` (`b`), input.
Returns `(status, value, bytesLeftInStation, remaining input)`. -/
def getVarlenIntField (prev : Int) (b : Int) (inp : List Char) :
    Option (Status × Int × Int × List Char) :=
  match getIntDigits 1 uninitLong inp with
  | none => none
  | some (_, bytesInNextField, inp1) =>
    let b1 := b - 1
    match getIntDigits (cIntOfLong bytesInNextField) prev inp1 with
    | none => none
    | some (stInner, v, inp2) =>
      if stInner = Status.zeroLengthField then
        some (.zeroLengthField, nanLong, b1, inp2)
      else
        if b1 < 0 then
          some (.successful, v, v - bytesInNextField - 1, inp2)
        else
          some (.successful, v, b1 - bytesInNextField, inp2)

/-- Model of `pow(10., (double) precision)` at integer exponents. -/
def cPow10 (p : Int) : ℚ :=
  if 0 ≤ p then ((10 : ℚ) ^ p.toNat) else 1 / (10 : ℚ) ^ (-p).toNat

/-- Embedding of `getVarlenFloatField` (lines 700–729).  Arguments as in
`getVarlenIntField`; the `double` result is an `Option ℚ` (`none` = NaN). -/
def getVarlenFloatField (prev : Option ℚ) (b : Int) (inp : List Char) :
    Option (Status × Option ℚ × Int × List Char) :=
  match getIntDigits 1 uninitLong inp with
  | none => none
  | some (st0, _sigDigits, inp1) =>
    let b1 := b - 1
    if st0 = Status.successful then
      match getIntDigits 1 uninitLong inp1 with
      | none => none
      | some (_, totalDigits, inp2) =>
        let b2 := b1 - 1
        match getIntDigits 1 uninitLong inp2 with
        | none => none
        | some (_, precision, inp3) =>
          let b3 := b2 - 1
          match getIntDigits (cIntOfLong totalDigits) uninitLong inp3 with
          | none => none
          | some (_, intvalue, inp4) =>
            let b4 := b3 - totalDigits
            some (.successful, some ((intvalue : ℚ) / cPow10 precision), b4, inp4)
    else if st0 = Status.zeroLengthField then
      some (.zeroLengthField, none, b1, inp1)
    else
      some (st0, prev, b1, inp1)

/-- The byte-discarding loop of `skipToNextStation`: discard `n` content
characters, skipping line terminators.  At end-of-file `fgetc` keeps
returning `EOF`, which the C loop counts like a content byte, so the loop
always terminates; modelled by stopping on the empty list. -/
def dropContent : Nat → List Char → List Char
  | 0, l => l
  | _ + 1, [] => []
  | n + 1, c :: t => if isNl c then dropContent (n + 1) t else dropContent n t

/-- Model of `fgets(dummy, 80, fp)`: consume up to 79 characters, stopping
after the first `'\n'`. -/
def fgetsAux : Nat → List Char → List Char
  | 0, l => l
  | _ + 1, [] => []
  | n + 1, c :: t => if c = '\n' then t else fgetsAux n t

/-- Embedding of `skipToNextStation` (lines 738–756): discard
`bytesLeftInStation` content bytes (none if negative), then one line via
`fgets`.  The final `fgetc`/`ungetc` pair is a net no-op on the stream. -/
def skipToNextStation (bytesLeftInStation : Int) (inp : List Char) : List Char :=
  fgetsAux 79 (dropContent bytesLeftInStation.toNat inp)

/-- The fixed standard-level depth table (lines 255–258). -/
def stdLevelDepth : List ℚ :=
  [0, 10, 20, 30, 50, 75, 100, 125, 150, 200, 250,
   300, 400, 500, 600, 700, 800, 900, 1000, 1100, 1200, 1300, 1400, 1500,
   1750, 2000, 2500, 3000, 3500, 4000, 4500, 5000, 5500, 6000, 6500, 7000,
   7500, 8000, 8500, 9000]

/-- One profile level: `depthValue[j]`, `errCodeForDepthValue[j]` and the
per-variable `varValue[k][j]`, `errCodeForVarValue[k][j]` slots written for
this level.  An error-code slot is `none` when the C code does not write it
(the corresponding value read was zero-length). -/
structure Level where
  depthValue : Option ℚ
  errCodeForDepthValue : Option Int
  varValue : List (Option ℚ × Option Int)
deriving DecidableEq

/-- Default used to model reading `depthValue[numberOfLevels-1]` when that
index was never written this call (possible only for
`numberOfLevels > MAX_LEVELS`, where the C code reads past the decoded
prefix). -/
def levelDefault : Level := ⟨none, none, []⟩

/-- Embedding of the `OCLStationType` struct of `ocl.h` (the fields the
decoder writes).  The fixed arrays (`varCode[MAX_VARS]`,
`depthValue[MAX_LEVELS]`, ...) are modelled by the lists of slots actually
written in this call; the safety claims about capacity are stated against
the list lengths. -/
structure OCLStation where
  bytesLeftInStation : Int
  bytesInStation : Int
  oclStationNumber : Int
  countryCode : Int
  cruiseNumber : Int
  year : Int
  month : Int
  day : Int
  time : Option ℚ
  lat : Option ℚ
  lon : Option ℚ
  numberOfLevels : Int
  stationType : Int
  numberOfVarCodes : Int
  varCode : List Int
  errCodeForVarCode : List Int
  bytesInCharPI : Int
  bytesInSecHdr : Int
  numberOfSecHdrEntries : Int
  secHdr : List (Int × Option ℚ)
  bytesInBioHdr : Int
  levels : List Level
  bottomDepthPtr : Option (Option ℚ)
  bottomDepthSource : Char
  varListChecksOut : Bool
  latlonInRange : Bool
  yearInRange : Bool
  monthInRange : Bool
  enoughProfileLevels : Bool
  badLatLon : Int
deriving DecidableEq

/-- The arguments of `getOCLStationData` other than the streams and the
output struct.  `llWest/llEast/llSouth/llNorth` are `latlonRegion[0..3]`,
`yearLo/yearHi` are `yearRange[0..1]`, `monthLo/monthHi` are
`monthRange[0..1]`; `varList` carries `numVarsOnVarList` as its length. -/
structure Args where
  stn : Int
  wantProfileFlag : Bool
  skipFlag : Bool
  stnToSkipTo : Int
  varListFlag : Bool
  varList : List Int
  minLevelsFlag : Bool
  minLevels : Int
  latlonRegionFlag : Bool
  llWest : ℚ
  llEast : ℚ
  llSouth : ℚ
  llNorth : ℚ
  yearRangeFlag : Bool
  yearLo : Int
  yearHi : Int
  monthRangeFlag : Bool
  monthLo : Int
  monthHi : Int
  dbBathyFlag : Bool
  zeroLatLonFlag : Bool
  wmoSquare : List Char

/-- Result of one `getOCLStationData` call: the returned status, the struct
contents, whether the `MAX_LEVELS` stderr diagnostic was emitted, the value
of the static `databaseBathyValue` after the call, the rest of the
bathymetry stream, and the rest of the input stream. -/
structure DecodeResult where
  status : Status
  stn : OCLStation
  levelsWarning : Bool
  dbValue : ℚ
  bathyRest : List ℚ
  inp : List Char
deriving DecidableEq

/-- IEEE `<` on modelled doubles: false whenever either side is NaN. -/
def qltB : Option ℚ → Option ℚ → Bool
  | some a, some b => decide (a < b)
  | _, _ => false

/-- IEEE `<=` on modelled doubles: false whenever either side is NaN. -/
def qleB : Option ℚ → Option ℚ → Bool
  | some a, some b => decide (a ≤ b)
  | _, _ => false

/-- IEEE `>=` on modelled doubles (used to state the claims). -/
def qgeB (a b : Option ℚ) : Bool := qleB b a

/-- IEEE subtraction on modelled doubles: NaN-propagating. -/
def qsub : Option ℚ → Option ℚ → Option ℚ
  | some a, some b => some (a - b)
  | _, _ => none

/-- Embedding of `checkVarsInclAndNoErrors` (lines 825–846): `numMatch`
counts every `(j,k)` pair with `varCodeList[k]==varRequestedList[j]`
(duplicates counted repeatedly), `applicableErrorFlags` counts such pairs
with `errCodeList[k]>0`; the check passes iff
`numMatch >= numVarsRequested` and no applicable error flag. -/
def checkVarsInclAndNoErrors
    (varRequestedList varCodeList errCodeList : List Int) : Bool :=
  let pairs := varCodeList.zip errCodeList
  let numMatch :=
    (varRequestedList.map (fun v => (pairs.filter (fun p => decide (p.1 = v))).length)).sum
  let applicableErrorFlags :=
    (varRequestedList.map
      (fun v => (pairs.filter (fun p => decide (p.1 = v ∧ 0 < p.2))).length)).sum
  decide (varRequestedList.length ≤ numMatch) && decide (applicableErrorFlags = 0)

/-- Embedding of `zeroLatLonOkay` (lines 851–859): a zero latitude is
plausible when `wmoSquare[1]=='0'`, a zero longitude when
`wmoSquare[2]=='0' && wmoSquare[3]=='0'`. -/
def zeroLatLonOkay (wmoSquare : List Char) (latlon : String) : Bool :=
  if latlon == "lat" && wmoSquare.getD 1 (Char.ofNat 0) == '0' then true
  else if latlon == "lon" && wmoSquare.getD 2 (Char.ofNat 0) == '0'
      && wmoSquare.getD 3 (Char.ofNat 0) == '0' then true
  else false

/-- Lines 392–402: initialise `(bottomDepthPtr, bottomDepthSource)` to
`(NULL, '-')` and scan the secondary header for code 10 (bottom depth);
the last matching entry wins. -/
def scanSecHdrCode10 (entries : List (Int × Option ℚ)) :
    Option (Option ℚ) × Char :=
  entries.foldl (fun acc e => if e.1 = 10 then (some e.2, 'h') else acc)
    (none, '-')

/-- Lines 404–429 (bottom-depth pass 1, bathymetry part): if enabled, read
one bathymetry record into the static `databaseBathyValue` (kept when the
stream is exhausted, as `fscanf` then assigns nothing), negate it, and
within the ±72 latitude band prefer it over the header value when there is
no header value or they differ by more than 80.  Returns the new
`(bottomDepthPtr, bottomDepthSource)`, the rest of the bathymetry stream
and the new `databaseBathyValue`. -/
def pass1Bathy (dbBathyFlag : Bool) (lat : Option ℚ)
    (bd : Option (Option ℚ) × Char) (bathy : List ℚ) (prevDb : ℚ) :
    (Option (Option ℚ) × Char) × List ℚ × ℚ :=
  if dbBathyFlag then
    let databaseBathyValue := -(bathy.headD prevDb)
    let bathy1 := bathy.drop 1
    if qleB lat (some 72) && qleB (some (-72)) lat then
      if !(bd.2 == 'h')
          || qltB (qsub bd.1.join (some databaseBathyValue)) (some (-80))
          || qltB (some 80) (qsub bd.1.join (some databaseBathyValue)) then
        ((some (some databaseBathyValue), 'd'), bathy1, databaseBathyValue)
      else (bd, bathy1, databaseBathyValue)
    else (bd, bathy1, databaseBathyValue)
  else (bd, bathy, prevDb)

/-- Lines 441–503: compute the filter flags. -/
def computeFlags (a : Args) (s : OCLStation) : OCLStation :=
  let varListChecksOut :=
    if a.varListFlag then
      checkVarsInclAndNoErrors a.varList s.varCode s.errCodeForVarCode
    else true
  let latlonInRange :=
    !(a.latlonRegionFlag &&
      (qltB s.lon (some a.llWest) || qltB (some a.llEast) s.lon ||
       qltB s.lat (some a.llSouth) || qltB (some a.llNorth) s.lat))
  let yearInRange :=
    !(a.yearRangeFlag && (decide (s.year < a.yearLo) || decide (a.yearHi < s.year)))
  let monthInRange :=
    !(a.monthRangeFlag && (decide (s.month < a.monthLo) || decide (a.monthHi < s.month)))
  let enoughProfileLevels :=
    !(a.minLevelsFlag && decide (s.numberOfLevels < a.minLevels))
  let zeroTol : Option ℚ := some (1 / 10 ^ 7)
  let negZeroTol : Option ℚ := some (-(1 / 10 ^ 7))
  let badLatLon : Int :=
    if a.zeroLatLonFlag then
      (if qltB s.lat zeroTol && qltB negZeroTol s.lat then
        (if zeroLatLonOkay a.wmoSquare "lat" then 0 else 1) else 0) +
      (if qltB s.lon zeroTol && qltB negZeroTol s.lon then
        (if zeroLatLonOkay a.wmoSquare "lon" then 0 else 1) else 0)
    else 0
  { s with varListChecksOut := varListChecksOut, latlonInRange := latlonInRange,
           yearInRange := yearInRange, monthInRange := monthInRange,
           enoughProfileLevels := enoughProfileLevels, badLatLon := badLatLon }

/-- Lines 455–457: the profile is really wanted unless the caller declined
it and a bottom depth is already selected. -/
def reallyWantProfile (a : Args) (s : OCLStation) : Bool :=
  !(!a.wantProfileFlag && s.bottomDepthPtr.isSome)

/-- The guard of line 509–511 deciding whether the rest of the station is
read. -/
def wantsRest (a : Args) (s : OCLStation) : Bool :=
  reallyWantProfile a s && s.varListChecksOut && decide (s.badLatLon = 0) &&
    s.latlonInRange && s.monthInRange && s.yearInRange && s.enoughProfileLevels

/-- Lines 603–607: select the last profile depth (source `'p'`). -/
def setProfileDepth (s : OCLStation) (deepest : Option ℚ) : OCLStation :=
  { s with bottomDepthPtr := some deepest, bottomDepthSource := 'p' }

/-- Lines 579–608 (bottom-depth pass 2): recheck the selection against
`depthValue[numberOfLevels-1]`.  For `numberOfLevels > MAX_LEVELS` the C
code reads past the decoded prefix (unspecified memory), modelled by
`levelDefault`. -/
def pass2BottomDepth (dbBathyFlag : Bool) (databaseBathyValue : ℚ)
    (s : OCLStation) : OCLStation :=
  if 0 < s.numberOfLevels then
    let deepest := (s.levels.getD (s.numberOfLevels - 1).toNat levelDefault).depthValue
    match s.bottomDepthPtr with
    | none => setProfileDepth s deepest
    | some bv =>
      if s.bottomDepthSource == 'h' && qltB bv deepest then
        if dbBathyFlag then
          if qltB (some databaseBathyValue) deepest then setProfileDepth s deepest
          else { s with bottomDepthPtr := some (some databaseBathyValue),
                        bottomDepthSource := 'd' }
        else setProfileDepth s deepest
      else if s.bottomDepthSource == 'd' && qltB bv deepest then
        setProfileDepth s deepest
      else s
  else s

/-- The recurring caller idiom
`if (getXField(...) == ZERO_LENGTH_FIELD) value = dflt;`: the struct slot
receives `dflt` on a zero-length read and the read value otherwise. -/
def zlfOr (st : Status) (dflt v : Int) : Int :=
  if st = Status.zeroLengthField then dflt else v

/-- Lines 325–332: the variable-code loop; iteration `j` reads
`varCode[j]` (var-length int) and `errCodeForVarCode[j]` (one digit,
budget decremented by 1). -/
def readVarCodesLoop : Nat → Int → List Char →
    Option (List Int × List Int × Int × List Char)
  | 0, b, inp => some ([], [], b, inp)
  | n + 1, b, inp =>
    match getVarlenIntField uninitLong b inp with
    | none => none
    | some (_, code, b1, inp1) =>
      match getIntDigits 1 uninitLong inp1 with
      | none => none
      | some (_, err, inp2) =>
        match readVarCodesLoop n (b1 - 1) inp2 with
        | none => none
        | some (codes, errs, b2, inp3) => some (code :: codes, err :: errs, b2, inp3)

/-- Lines 346–349 / 519–522: discard `n` content bytes one at a time via
`getIntDigits(fp, 1, &ld_dummy)`, decrementing the budget each time. -/
def skipBlockBytes : Nat → Int → List Char → Option (Int × List Char)
  | 0, b, inp => some (b, inp)
  | n + 1, b, inp =>
    match getIntDigits 1 uninitLong inp with
    | none => none
    | some (_, _, inp1) => skipBlockBytes n (b - 1) inp1

/-- Lines 341–351 and 514–524: a block (character/PI data, biological
header) whose length is a var-length int and whose content is discarded
byte-by-byte.  Returns the length-field value stored in the struct
(0 on a zero-length field), the budget and the remaining input. -/
def readSkippedBlock (b : Int) (inp : List Char) :
    Option (Int × Int × List Char) :=
  match getVarlenIntField uninitLong b inp with
  | none => none
  | some (st, v, b1, inp1) =>
    if st ≠ Status.zeroLengthField then
      match skipBlockBytes v.toNat b1 inp1 with
      | none => none
      | some (b2, inp2) => some (v, b2, inp2)
    else some (0, b1, inp1)

/-- Lines 365–376: the secondary-header entry loop; entry `j` reads
`secHdrCode[j]` (var-length int) and `secHdrValue[j]` (var-length float). -/
def readSecHdrLoop : Nat → Int → List Char →
    Option (List (Int × Option ℚ) × Int × List Char)
  | 0, b, inp => some ([], b, inp)
  | n + 1, b, inp =>
    match getVarlenIntField uninitLong b inp with
    | none => none
    | some (_, code, b1, inp1) =>
      match getVarlenFloatField staleQ b1 inp1 with
      | none => none
      | some (_, v, b2, inp2) =>
        match readSecHdrLoop n b2 inp2 with
        | none => none
        | some (entries, b3, inp3) => some ((code, v) :: entries, b3, inp3)

/-- Lines 355–381: the secondary-header section.  Returns
`(bytesInSecHdr, numberOfSecHdrEntries, entries, budget, input)`.  Note
that on a zero-length entry-count field the C code stores the NaN
sentinel in `numberOfSecHdrEntries` (the loop then runs zero times). -/
def readSecHdrSection (b : Int) (inp : List Char) :
    Option (Int × Int × List (Int × Option ℚ) × Int × List Char) :=
  match getVarlenIntField uninitLong b inp with
  | none => none
  | some (st, v, b1, inp1) =>
    if st ≠ Status.zeroLengthField then
      match getVarlenIntField uninitLong b1 inp1 with
      | none => none
      | some (_, cnt, b2, inp2) =>
        match readSecHdrLoop cnt.toNat b2 inp2 with
        | none => none
        | some (entries, b3, inp3) => some (v, cnt, entries, b3, inp3)
    else some (0, 0, [], b1, inp1)

/-- Lines 550–559: one level's depth.  Observed stations (`stationType==0`)
read a var-length float plus, unless it was zero-length, a one-digit error
code; standard-level stations take `stdLevelDepth[j]` (an out-of-range `j`
reads unspecified memory in C, modelled by the `getD` default). -/
def readOneLevelDepth (stationType : Int) (j : Nat) (b : Int)
    (inp : List Char) : Option ((Option ℚ × Option Int) × Int × List Char) :=
  if stationType = 0 then
    match getVarlenFloatField staleQ b inp with
    | none => none
    | some (st, dv, b1, inp1) =>
      if st ≠ Status.zeroLengthField then
        match getIntDigits 1 uninitLong inp1 with
        | none => none
        | some (_, derr, inp2) => some ((dv, some derr), b1 - 1, inp2)
      else some ((dv, none), b1, inp1)
  else some ((some (stdLevelDepth.getD j 0), none), b, inp)

/-- Lines 562–569: the per-level variable-value loop (`numberOfVarCodes`
iterations: var-length float plus, unless zero-length, a one-digit error
code). -/
def readLevelVarsLoop : Nat → Int → List Char →
    Option (List (Option ℚ × Option Int) × Int × List Char)
  | 0, b, inp => some ([], b, inp)
  | n + 1, b, inp =>
    match getVarlenFloatField staleQ b inp with
    | none => none
    | some (st, v, b1, inp1) =>
      if st ≠ Status.zeroLengthField then
        match getIntDigits 1 uninitLong inp1 with
        | none => none
        | some (_, err, inp2) =>
          match readLevelVarsLoop n (b1 - 1) inp2 with
          | none => none
          | some (vs, b2, inp3) => some ((v, some err) :: vs, b2, inp3)
      else
        match readLevelVarsLoop n b1 inp1 with
        | none => none
        | some (vs, b2, inp3) => some ((v, none) :: vs, b2, inp3)

/-- Lines 548–570: the profile-level loop, `j` the level index, the second
argument the number of iterations left (the loop runs
`min(numberOfLevels, MAX_LEVELS)` times). -/
def readLevelsLoop (stationType : Int) (nvars : Nat) :
    Nat → Nat → Int → List Char → Option (List Level × Int × List Char)
  | _, 0, b, inp => some ([], b, inp)
  | j, n + 1, b, inp =>
    match readOneLevelDepth stationType j b inp with
    | none => none
    | some ((dv, derr), b1, inp1) =>
      match readLevelVarsLoop nvars b1 inp1 with
      | none => none
      | some (vs, b2, inp2) =>
        match readLevelsLoop stationType nvars (j + 1) n b2 inp2 with
        | none => none
        | some (lvls, b3, inp3) => some (⟨dv, derr, vs⟩ :: lvls, b3, inp3)

/-- Lines 291–618: the non-skipped remainder of `getOCLStationData`, from
the country code to the final `skipToNextStation`. -/
def decodeRest (a : Args) (s0 : OCLStation) (prevDb : ℚ) (bathy : List ℚ)
    (inp0 : List Char) : Option DecodeResult :=
  match getIntDigits 2 uninitLong inp0 with
  | none => none
  | some (stCC, cc, inp1) =>
  let s1 := { s0 with countryCode := zlfOr stCC (-1) cc }
  let b1 := s0.bytesLeftInStation - 2
  match getVarlenIntField uninitLong b1 inp1 with
  | none => none
  | some (stCR, cr, b2, inp2) =>
  let s2 := { s1 with cruiseNumber := zlfOr stCR (-1) cr }
  match getIntDigits 4 uninitLong inp2 with
  | none => none
  | some (_, yr, inp3) =>
  let b3 := b2 - 4
  match getIntDigits 2 uninitLong inp3 with
  | none => none
  | some (_, mo, inp4) =>
  let b4 := b3 - 2
  match getIntDigits 2 uninitLong inp4 with
  | none => none
  | some (_, dy, inp5) =>
  let b5 := b4 - 2
  let s3 := { s2 with year := yr, month := mo, day := dy }
  match getVarlenFloatField staleQ b5 inp5 with
  | none => none
  | some (_, tm, b6, inp6) =>
  match getVarlenFloatField staleQ b6 inp6 with
  | none => none
  | some (_, la, b7, inp7) =>
  match getVarlenFloatField staleQ b7 inp7 with
  | none => none
  | some (_, lo, b8, inp8) =>
  let s4 := { s3 with time := tm, lat := la, lon := lo }
  match getVarlenIntField uninitLong b8 inp8 with
  | none => none
  | some (stNL, nl, b9, inp9) =>
  let s5 := { s4 with numberOfLevels := zlfOr stNL 0 nl }
  match getIntDigits 1 uninitLong inp9 with
  | none => none
  | some (_, sty, inp10) =>
  let b10 := b9 - 1
  match getIntDigits 2 uninitLong inp10 with
  | none => none
  | some (_, nvc, inp11) =>
  let b11 := b10 - 2
  let s6 := { s5 with stationType := sty, numberOfVarCodes := nvc }
  match readVarCodesLoop nvc.toNat b11 inp11 with
  | none => none
  | some (codes, errs, b12, inp12) =>
  let s7 := { s6 with varCode := codes, errCodeForVarCode := errs }
  match readSkippedBlock b12 inp12 with
  | none => none
  | some (vPI, b13, inp13) =>
  let s8 := { s7 with bytesInCharPI := vPI }
  match readSecHdrSection b13 inp13 with
  | none => none
  | some (vSH, cntSH, entries, b14, inp14) =>
  let s9 := { s8 with bytesInSecHdr := vSH, numberOfSecHdrEntries := cntSH,
                      secHdr := entries }
  let bd := scanSecHdrCode10 s9.secHdr
  let p1 := pass1Bathy a.dbBathyFlag s9.lat bd bathy prevDb
  let s10 := { s9 with bottomDepthPtr := p1.1.1, bottomDepthSource := p1.1.2 }
  let bathy1 := p1.2.1
  let dbVal := p1.2.2
  let s11 := computeFlags a s10
  if wantsRest a s11 then
    match readSkippedBlock b14 inp14 with
    | none => none
    | some (vBio, b15, inp15) =>
    let warn := decide (MAX_LEVELS < s11.numberOfLevels)
    match readLevelsLoop s11.stationType s11.numberOfVarCodes.toNat 0
        (min s11.numberOfLevels MAX_LEVELS).toNat b15 inp15 with
    | none => none
    | some (lvls, b16, inp16) =>
    let s12 := pass2BottomDepth a.dbBathyFlag dbVal
      { s11 with bytesInBioHdr := vBio, levels := lvls }
    some ⟨.successful, { s12 with bytesLeftInStation := b16 }, warn, dbVal,
          bathy1, skipToNextStation b16 inp16⟩
  else
    some ⟨.successful, { s11 with bytesLeftInStation := b14 }, false, dbVal,
          bathy1, skipToNextStation b14 inp14⟩

/-- Embedding of `getOCLStationData` (lines 241–620).  `st0` is the
caller-owned struct's previous contents, `prevDb` the value of the static
`databaseBathyValue` before the call, `bathy` the bathymetry side-channel
(reduced to its depth column, the only field kept).  `none` models the
fatal `exit(1)` on an unexpected end of stream. -/
def getOCLStationData (a : Args) (st0 : OCLStation) (prevDb : ℚ)
    (bathy : List ℚ) (inp : List Char) : Option DecodeResult :=
  match getVarlenIntField uninitLong (-1 : Int) inp with
  | none => none
  | some (st1, v1, bA, inpA) =>
  let sA := { st0 with bytesLeftInStation := bA,
                       bytesInStation := zlfOr st1 0 v1 }
  match getVarlenIntField uninitLong bA inpA with
  | none => none
  | some (st2, v2, bB, inpB) =>
  let sB := { sA with bytesLeftInStation := bB,
                      oclStationNumber := zlfOr st2 (-1) v2 }
  if a.skipFlag && decide (a.stn < a.stnToSkipTo) then
    some ⟨.skipped, sB, false, prevDb,
          (if a.dbBathyFlag then bathy.drop 1 else bathy),
          skipToNextStation bB inpB⟩
  else
    decodeRest a sB prevDb bathy inpB

/-! ## Claim C6: status classification of `getIntDigits` -/

/-- C6: `getIntDigits(n)` returns a parsed integer with `SUCCESSFUL` status
when `n > 0` and the terminal (last non-line-terminator) character read is
a digit; returns `ZERO_LENGTH_FIELD` (the legitimate no-value encoding)
when `n == 0`, or when `n == 1` and the sole character read is a minus
sign; and returns the unspecified-format error status for any other
terminal non-digit character. -/
theorem c6_getIntDigits_statuses :
    (∀ (prev : Int) (inp : List Char),
      getIntDigits 0 prev inp = some (Status.zeroLengthField, nanLong, inp)) ∧
    (∀ (n prev : Int) (inp cs rest : List Char), 0 < n →
      readContentChars n.toNat inp = some (cs, rest) →
        ((cs.getLastD ' ').isDigit = true →
          getIntDigits n prev inp = some (Status.successful, parseLd cs prev, rest)) ∧
        (n = 1 → cs.getLastD ' ' = '-' →
          getIntDigits n prev inp = some (Status.zeroLengthField, nanLong, rest)) ∧
        ((cs.getLastD ' ').isDigit = false → ¬(n = 1 ∧ cs.getLastD ' ' = '-') →
          getIntDigits n prev inp = some (Status.unspecifiedProblem, prev, rest))) := by
  constructor
  · intro prev inp
    simp [getIntDigits]
  · intro n prev inp cs rest hn hread
    have hnle : ¬ n ≤ 0 := by omega
    refine ⟨?_, ?_, ?_⟩
    · intro hd
      rw [List.getLastD_eq_getLast?] at hd
      simp [getIntDigits, hnle, hread, hd]
    · intro h1 hdash
      subst h1
      rw [List.getLastD_eq_getLast?] at hdash
      have hread1 : readContentChars 1 inp = some (cs, rest) := by simpa using hread
      simp +decide [getIntDigits, hread1, hdash]
    · intro hd hnot
      rw [List.getLastD_eq_getLast?] at hd
      rw [List.getLastD_eq_getLast?] at hnot
      simp [getIntDigits, hnle, hread, hd, hnot]

/-- Witness for C6: `readFixedDigits(1)` on `"-"` is the zero-length
"missing" outcome, not an error. -/
theorem c6_getIntDigits_statuses_witness :
    getIntDigits 1 7 ['-', 'x'] = some (Status.zeroLengthField, nanLong, ['x']) := by
  have h := c6_getIntDigits_statuses.2 1 7 ['-', 'x'] ['-'] ['x'] (by decide) (by decide)
  exact h.2.1 rfl (by decide)

/-! ## Claim C7: budget handling of `getVarlenIntField` -/

/-- C7: after reading the 1-digit length `L` and decrementing the budget by
1, `getVarlenIntField` on a zero-length inner read stores the missing
sentinel and returns `ZERO_LENGTH_FIELD` with no further budget change;
otherwise, if the running budget is still uninitialised (negative) it sets
it to `value - L - 1`, and if it is initialised it decrements it by `L`. -/
theorem c7_getVarlenIntField_budget (prev b L : Int) (st0 stI : Status)
    (v : Int) (inp inp1 inp2 : List Char)
    (h1 : getIntDigits 1 uninitLong inp = some (st0, L, inp1))
    (h2 : getIntDigits (cIntOfLong L) prev inp1 = some (stI, v, inp2)) :
    getVarlenIntField prev b inp =
      if stI = Status.zeroLengthField then
        some (Status.zeroLengthField, nanLong, b - 1, inp2)
      else if b - 1 < 0 then
        some (Status.successful, v, v - L - 1, inp2)
      else
        some (Status.successful, v, (b - 1) - L, inp2) := by
  simp only [getVarlenIntField, h1, h2]

/-- Witness for C7 exercising both conclusions reachable at one input:
a successful inner read against an initialised budget. -/
theorem c7_getVarlenIntField_budget_witness :
    getVarlenIntField 5 100 ['2', '3', '4', 'X'] =
      some (Status.successful, 34, 97, ['X']) := by
  have h := c7_getVarlenIntField_budget 5 100 2 Status.successful
    Status.successful 34 ['2', '3', '4', 'X'] ['3', '4', 'X'] ['X']
    (by decide) (by decide)
  simpa using h

/-! ## Claim C10: `getVarlenFloatField` swallows inner failures -/

/-- C10: whenever the first 1-digit control (significant digits) of
`getVarlenFloatField` parses as a digit (status `SUCCESSFUL`), the function
returns `SUCCESSFUL`, even if the later control or content reads return
zero-length or unspecified-format statuses: those inner statuses are
overwritten and never propagated. -/
theorem c10_getVarlenFloatField_status (prev : Option ℚ) (b sig : Int)
    (inp inp1 : List Char)
    (h1 : getIntDigits 1 uninitLong inp = some (Status.successful, sig, inp1))
    (r : Status × Option ℚ × Int × List Char)
    (h2 : getVarlenFloatField prev b inp = some r) :
    r.1 = Status.successful := by
  rcases hA : getIntDigits 1 uninitLong inp1 with _ | ⟨stT, tot, inp2⟩
  · simp [getVarlenFloatField, h1, hA] at h2
  · rcases hB : getIntDigits 1 uninitLong inp2 with _ | ⟨stP, prc, inp3⟩
    · simp [getVarlenFloatField, h1, hA, hB] at h2
    · rcases hC : getIntDigits (cIntOfLong tot) uninitLong inp3 with
        _ | ⟨stV, iv, inp4⟩
      · simp [getVarlenFloatField, h1, hA, hB, hC] at h2
      · have hval : getVarlenFloatField prev b inp =
            some (Status.successful, some ((iv : ℚ) / cPow10 prc),
              b - 1 - 1 - 1 - tot, inp4) := by
          simp [getVarlenFloatField, h1, hA, hB, hC]
        rw [hval] at h2
        simp only [Option.some.injEq] at h2
        subst h2
        rfl

/-- Witness for C10: the total-digits control is the minus marker
(zero-length inner status), yet the overall status is `SUCCESSFUL`. -/
theorem c10_getVarlenFloatField_status_witness :
    ∃ r : Status × Option ℚ × Int × List Char,
      getVarlenFloatField none 50 ['1', '-', '0', 'Z'] = some r ∧
        r.1 = Status.successful := by
  obtain ⟨r, hr⟩ : ∃ r, getVarlenFloatField none 50 ['1', '-', '0', 'Z'] = some r :=
    ⟨_, rfl⟩
  exact ⟨r, hr, c10_getVarlenFloatField_status none 50 1 ['1', '-', '0', 'Z']
    ['-', '0', 'Z'] (by decide) r hr⟩

/-! ## Claim C4: the variable-coverage check -/

/-- Helper: the per-request match count of `checkVarsInclAndNoErrors` is
the multiplicity of the requested code among the declared codes. -/
theorem zipFilterFst_length (codes errs : List Int)
    (hlen : codes.length = errs.length) (v : Int) :
    ((codes.zip errs).filter (fun p => decide (p.1 = v))).length =
      codes.count v := by
  induction codes generalizing errs with
  | nil => simp
  | cons c t ih =>
    cases errs with
    | nil => simp at hlen
    | cons e te =>
      have hlen2 : t.length = te.length := by simpa using hlen
      by_cases hc : c = v
      · simp [List.count_cons, hc, ih te hlen2]
      · simp [List.count_cons, hc, ih te hlen2]

/-- Helper: `applicableErrorFlags == 0` says exactly that no declared code
matching a requested one carries a positive error code. -/
theorem errFlags_zero_iff (req codes errs : List Int) :
    ((req.map (fun v => ((codes.zip errs).filter
        (fun p => decide (p.1 = v ∧ 0 < p.2))).length)).sum = 0) ↔
      (∀ p ∈ codes.zip errs, p.1 ∈ req → p.2 ≤ 0) := by
  rw [List.sum_eq_zero_iff]
  simp only [List.mem_map, forall_exists_index, and_imp,
    forall_apply_eq_imp_iff₂, List.length_eq_zero, List.filter_eq_nil_iff,
    decide_eq_true_eq]
  constructor
  · intro h p hp hmem
    have hz := h _ hmem p hp
    by_contra hgt
    exact hz ⟨rfl, by omega⟩
  · intro h v hv p hp hcon
    have := h p hp (hcon.1 ▸ hv)
    omega

/-- Helper: with pairwise-distinct declared codes, `numMatch` reaches the
requested count exactly when every requested code is declared. -/
theorem sum_count_ge_iff (req codes : List Int) (hnd : codes.Nodup) :
    (req.length ≤ (req.map (fun v => codes.count v)).sum) ↔
      ∀ v ∈ req, v ∈ codes := by
  induction req with
  | nil => simp
  | cons a t ih =>
    simp only [List.map_cons, List.sum_cons, List.length_cons, List.mem_cons]
    have hle : codes.count a ≤ 1 := List.nodup_iff_count_le_one.1 hnd a
    have hsum : (t.map (fun v => codes.count v)).sum ≤ t.length := by
      calc (t.map (fun v => codes.count v)).sum
          ≤ (t.map (fun v => codes.count v)).length * 1 := by
            apply List.sum_le_card_nsmul
            intro x hx
            obtain ⟨v, _, hv⟩ := List.mem_map.1 hx
            exact hv ▸ List.nodup_iff_count_le_one.1 hnd v
        _ = t.length := by simp
    constructor
    · intro h
      have haIn : a ∈ codes := by
        by_contra hna
        have h0 : codes.count a = 0 := List.count_eq_zero.2 hna
        omega
      intro v hv
      rcases hv with hv | hv
      · exact hv ▸ haIn
      · exact (ih.1 (by omega)) v hv
    · intro h
      have h1 : codes.count a = 1 :=
        List.count_eq_one_of_mem hnd (h a (Or.inl rfl))
      have h2 : t.length ≤ (t.map (fun v => codes.count v)).sum :=
        ih.2 (fun v hv => h v (Or.inr hv))
      omega

/-- C4 counterexample: with duplicated declared codes the check passes
although a requested code (3) is absent: `numMatch` counts the two matches
of code 2 and reaches the requested count.  This refutes "passes iff every
requested variable code is present among the declared codes ...". -/
theorem c4_counterexample :
    checkVarsInclAndNoErrors [2, 3] [2, 2] [0, 0] = true ∧
      ¬(∀ v ∈ ([2, 3] : List Int), v ∈ ([2, 2] : List Int)) := by decide

/-- C4 (amended): when the declared variable codes are pairwise distinct,
`checkVarsInclAndNoErrors` passes iff every requested code is present among
the declared codes and no declared code equal to a requested one carries a
positive error code; and when no variable list is supplied
(`varListFlag` false) the check trivially passes. -/
theorem c4_varcheck_amended :
    (∀ (req codes errs : List Int), codes.length = errs.length →
      codes.Nodup →
      (checkVarsInclAndNoErrors req codes errs = true ↔
        (∀ v ∈ req, v ∈ codes) ∧
        (∀ p ∈ codes.zip errs, p.1 ∈ req → p.2 ≤ 0))) ∧
    (∀ (a : Args) (s : OCLStation), a.varListFlag = false →
      (computeFlags a s).varListChecksOut = true) := by
  constructor
  · intro req codes errs hlen hnd
    unfold checkVarsInclAndNoErrors
    simp only [Bool.and_eq_true, decide_eq_true_eq]
    have hcong : req.map (fun v =>
        ((codes.zip errs).filter (fun p => decide (p.1 = v))).length) =
        req.map (fun v => codes.count v) :=
      List.map_congr_left (fun v _ => zipFilterFst_length codes errs hlen v)
    rw [hcong, sum_count_ge_iff req codes hnd,
      errFlags_zero_iff req codes errs]
  · intro a s hflag
    simp [computeFlags, hflag]

/-- Witness for C4 (amended) at a concrete instance. -/
theorem c4_varcheck_amended_witness :
    checkVarsInclAndNoErrors [2] [2, 3] [0, 0] = true :=
  (c4_varcheck_amended.1 [2] [2, 3] [0, 0] (by decide) (by decide)).2
    ⟨by decide, by decide⟩

/-! ## Claim C3: pass-1 database preference -/

/-- Helper: folding the code-10 scan from any no-selection-or-header
accumulator stays a no-selection-or-header value. -/
theorem scanSecHdrFoldShape (t : List (Int × Option ℚ))
    (acc : Option (Option ℚ) × Char)
    (h : acc = (none, '-') ∨ ∃ q0 : Option ℚ, acc = (some q0, 'h')) :
    (t.foldl (fun acc e => if e.1 = 10 then (some e.2, 'h') else acc) acc
        = (none, '-')) ∨
      ∃ q0 : Option ℚ,
        t.foldl (fun acc e => if e.1 = 10 then (some e.2, 'h') else acc) acc
          = (some q0, 'h') := by
  induction t generalizing acc with
  | nil => simp only [List.foldl_nil]; exact h
  | cons e t ih =>
    simp only [List.foldl_cons]
    apply ih
    by_cases he : e.1 = 10
    · exact Or.inr ⟨e.2, by simp [he]⟩
    · simpa [he] using h

/-- Helper: the code-10 scan yields either no selection or a header
selection. -/
theorem scanSecHdrCode10_shape (entries : List (Int × Option ℚ)) :
    scanSecHdrCode10 entries = (none, '-') ∨
      ∃ q0 : Option ℚ, scanSecHdrCode10 entries = (some q0, 'h') :=
  scanSecHdrFoldShape entries (none, '-') (Or.inl rfl)

/-- C3: with bathymetry enabled, pass 1 selects the negated database value
with source `'d'` exactly when the latitude lies within `[-72, 72]` and
either no code-10 header depth was selected or the header and database
values differ by more than 80; otherwise the previous selection is kept. -/
theorem c3_pass1_database_selection (lq d0 prevDb : ℚ)
    (entries : List (Int × Option ℚ)) (brest : List ℚ) :
    ((pass1Bathy true (some lq) (scanSecHdrCode10 entries) (d0 :: brest)
        prevDb).1 = (some (some (-d0)), 'd') ↔
      ((-72 ≤ lq ∧ lq ≤ 72) ∧
        ((scanSecHdrCode10 entries).2 ≠ 'h' ∨
          ∃ q : ℚ, (scanSecHdrCode10 entries).1 = some (some q) ∧
            80 < |q - (-d0)|))) ∧
    (¬((-72 ≤ lq ∧ lq ≤ 72) ∧
        ((scanSecHdrCode10 entries).2 ≠ 'h' ∨
          ∃ q : ℚ, (scanSecHdrCode10 entries).1 = some (some q) ∧
            80 < |q - (-d0)|)) →
      (pass1Bathy true (some lq) (scanSecHdrCode10 entries) (d0 :: brest)
        prevDb).1 = scanSecHdrCode10 entries) := by
  rcases scanSecHdrCode10_shape entries with hbd | ⟨q0, hbd⟩
  · -- no header selection: within the band the database is always taken
    rw [hbd]
    by_cases hb : lq ≤ 72 ∧ -72 ≤ lq
    · have hres : (pass1Bathy true (some lq) (none, '-') (d0 :: brest)
          prevDb).1 = (some (some (-d0)), 'd') := by
        simp [pass1Bathy, qleB, hb.1, hb.2]
      refine ⟨?_, ?_⟩
      · rw [hres]
        simp only [true_iff]
        exact ⟨⟨hb.2, hb.1⟩, Or.inl (by decide)⟩
      · intro hc
        exact absurd ⟨⟨hb.2, hb.1⟩, Or.inl (by decide)⟩ hc
    · have hres : (pass1Bathy true (some lq) (none, '-') (d0 :: brest)
          prevDb).1 = (none, '-') := by
        rcases not_and_or.1 hb with h | h <;> simp [pass1Bathy, qleB, h]
      rw [hres]
      constructor
      · constructor
        · intro h; exact absurd h (by simp)
        · rintro ⟨⟨h1, h2⟩, -⟩; exact absurd ⟨h2, h1⟩ hb
      · intro _; rfl
  · -- header selection present
    rcases q0 with _ | q
    · -- header value is NaN: all comparisons fail, header kept
      rw [hbd]
      have hres : (pass1Bathy true (some lq) (some none, 'h') (d0 :: brest)
          prevDb).1 = (some none, 'h') := by
        by_cases hb : lq ≤ 72 ∧ -72 ≤ lq
        · simp [pass1Bathy, qleB, qltB, qsub, hb.1, hb.2]
        · rcases not_and_or.1 hb with h | h <;> simp [pass1Bathy, qleB, h]
      rw [hres]
      constructor
      · constructor
        · intro h; exact absurd h (by simp)
        · rintro ⟨-, h | ⟨q, hq, -⟩⟩
          · exact absurd rfl h
          · exact absurd hq (by simp)
      · intro _; rfl
    · -- real header value q: database preferred iff it differs by over 80
      rw [hbd]
      by_cases hb : lq ≤ 72 ∧ -72 ≤ lq
      · by_cases hd : 80 < |q - (-d0)|
        · have hcond : q + d0 < -80 ∨ (80:ℚ) < q + d0 := by
            rcases lt_abs.1 hd with h | h
            · right; linarith
            · left; linarith
          have hres : (pass1Bathy true (some lq) (some (some q), 'h')
              (d0 :: brest) prevDb).1 = (some (some (-d0)), 'd') := by
            rcases hcond with h | h <;>
              simp [pass1Bathy, qleB, qltB, qsub, hb.1, hb.2, h]
          rw [hres]
          constructor
          · simp only [true_iff]
            exact ⟨⟨hb.2, hb.1⟩, Or.inr ⟨q, rfl, hd⟩⟩
          · intro hc
            exact absurd ⟨⟨hb.2, hb.1⟩, Or.inr ⟨q, rfl, hd⟩⟩ hc
        · have h1 : ¬(q + d0 < -80) := by
            intro h
            exact hd (lt_abs.2 (Or.inr (by linarith)))
          have h2 : ¬((80:ℚ) < q + d0) := by
            intro h
            exact hd (lt_abs.2 (Or.inl (by linarith)))
          have hres : (pass1Bathy true (some lq) (some (some q), 'h')
              (d0 :: brest) prevDb).1 = (some (some q), 'h') := by
            simp [pass1Bathy, qleB, qltB, qsub, hb.1, hb.2, h1, h2]
          rw [hres]
          constructor
          · constructor
            · intro h; exact absurd h (by simp)
            · rintro ⟨-, h | ⟨q2, hq2, hd2⟩⟩
              · exact absurd rfl h
              · simp only [Option.some.injEq] at hq2
                exact absurd (hq2 ▸ hd2) hd
          · intro _; rfl
      · have hres : (pass1Bathy true (some lq) (some (some q), 'h')
            (d0 :: brest) prevDb).1 = (some (some q), 'h') := by
          rcases not_and_or.1 hb with h | h <;> simp [pass1Bathy, qleB, h]
        rw [hres]
        constructor
        · constructor
          · intro h; exact absurd h (by simp)
          · rintro ⟨⟨h1, h2⟩, -⟩; exact absurd ⟨h2, h1⟩ hb
        · intro _; rfl

/-- Witness for C3: no header depth, latitude 0, raw database value −100;
the sign-flipped value 100 is selected with source database. -/
theorem c3_pass1_database_selection_witness :
    (pass1Bathy true (some 0) (scanSecHdrCode10 []) ((-100) :: []) 0).1 =
      (some (some (100 : ℚ)), 'd') := by
  have h := (c3_pass1_database_selection 0 (-100) 0 [] []).1
  rw [show (-(-100 : ℚ)) = (100 : ℚ) by norm_num] at h
  exact h.2 ⟨⟨by norm_num, by norm_num⟩, Or.inl (by decide)⟩


theorem qltB_self (x : Option ℚ) : qltB x x = false := by
  cases x <;> simp [qltB]

theorem pass1Bathy_shape (f : Bool) (lat : Option ℚ)
    (bd : Option (Option ℚ) × Char) (bathy : List ℚ) (prevDb : ℚ)
    (h : bd = (none, '-') ∨ ∃ q0 : Option ℚ, bd = (some q0, 'h')) :
    (pass1Bathy f lat bd bathy prevDb).1.1 = none ∨
      (pass1Bathy f lat bd bathy prevDb).1.2 = 'h' ∨
      (pass1Bathy f lat bd bathy prevDb).1.2 = 'd' := by
  rcases h with h | ⟨q0, h⟩
  · subst h
    unfold pass1Bathy
    repeat' split
    all_goals simp
  · subst h
    unfold pass1Bathy
    repeat' split
    all_goals try simp
    all_goals (split <;> simp)

theorem pass2_not_shallower (f : Bool) (d : ℚ) (s : OCLStation)
    (hn : 0 < s.numberOfLevels)
    (hsrc : s.bottomDepthPtr = none ∨ s.bottomDepthSource = 'h' ∨
      s.bottomDepthSource = 'd') :
    qltB (pass2BottomDepth f d s).bottomDepthPtr.join
      ((s.levels.getD (s.numberOfLevels - 1).toNat levelDefault).depthValue) =
      false := by
  simp only [pass2BottomDepth]
  rw [if_pos hn]
  generalize hdp :
    (s.levels.getD (s.numberOfLevels - 1).toNat levelDefault).depthValue = dp
  rcases hptr : s.bottomDepthPtr with _ | bv
  · simp [setProfileDepth, qltB_self]
  · by_cases hH : (s.bottomDepthSource == 'h' && qltB bv dp) = true
    · by_cases hf : f = true
      · by_cases hdb : qltB (some d) dp = true
        · simp [hH, hf, hdb, setProfileDepth, qltB_self]
        · simp only [Bool.not_eq_true] at hdb
          simp [hH, hf, hdb, setProfileDepth]
      · simp only [Bool.not_eq_true] at hf
        simp [hH, hf, setProfileDepth, qltB_self]
    · by_cases hD : (s.bottomDepthSource == 'd' && qltB bv dp) = true
      · simp [hH, hD, setProfileDepth, qltB_self]
      · simp only [Bool.not_eq_true] at hH hD
        simp only [hH, hD, Bool.false_eq_true, if_false]
        rw [hptr]
        show qltB bv dp = false
        rcases hsrc with hs | hs | hs
        · rw [hs] at hptr; exact absurd hptr (by simp)
        · rw [hs] at hH; simpa using hH
        · rw [hs] at hD; simpa using hD

theorem readLevelsLoop_length (stype : Int) (nv : Nat) :
    ∀ (n j : Nat) (b : Int) (inp : List Char) (lvls : List Level)
      (b2 : Int) (inp2 : List Char),
      readLevelsLoop stype nv j n b inp = some (lvls, b2, inp2) →
        lvls.length = n := by
  intro n
  induction n with
  | zero =>
    intro j b inp lvls b2 inp2 h
    simp only [readLevelsLoop, Option.some.injEq, Prod.mk.injEq] at h
    simp [← h.1]
  | succ n ih =>
    intro j b inp lvls b2 inp2 h
    simp only [readLevelsLoop] at h
    rcases h1 : readOneLevelDepth stype j b inp with _ | ⟨⟨dv, derr⟩, b1, inp1⟩
    · simp only [h1] at h
      exact absurd h (by simp)
    simp only [h1] at h
    rcases h2 : readLevelVarsLoop nv b1 inp1 with _ | ⟨vs, bv2, inpv2⟩
    · simp only [h2] at h
      exact absurd h (by simp)
    simp only [h2] at h
    rcases h3 : readLevelsLoop stype nv (j + 1) n bv2 inpv2 with
        _ | ⟨lvls3, b3, inp3⟩
    · simp only [h3] at h
      exact absurd h (by simp)
    simp only [h3] at h
    simp only [Option.some.injEq, Prod.mk.injEq] at h
    have hlen := ih (j + 1) bv2 inpv2 lvls3 b3 inp3 h3
    rw [← h.1]
    simp [hlen]

theorem pass2_preserves (f : Bool) (d : ℚ) (s : OCLStation) :
    (pass2BottomDepth f d s).levels = s.levels ∧
    (pass2BottomDepth f d s).numberOfLevels = s.numberOfLevels ∧
    (pass2BottomDepth f d s).varListChecksOut = s.varListChecksOut ∧
    (pass2BottomDepth f d s).badLatLon = s.badLatLon ∧
    (pass2BottomDepth f d s).latlonInRange = s.latlonInRange ∧
    (pass2BottomDepth f d s).monthInRange = s.monthInRange ∧
    (pass2BottomDepth f d s).yearInRange = s.yearInRange ∧
    (pass2BottomDepth f d s).enoughProfileLevels = s.enoughProfileLevels := by
  unfold pass2BottomDepth setProfileDepth
  repeat' split
  all_goals simp
  all_goals (repeat' split)
  all_goals simp

theorem reallyWantProfile_of_want (a : Args) (s : OCLStation)
    (h : a.wantProfileFlag = true) : reallyWantProfile a s = true := by
  simp [reallyWantProfile, h]

theorem pass2_levels (f : Bool) (d : ℚ) (s : OCLStation) :
    (pass2BottomDepth f d s).levels = s.levels := (pass2_preserves f d s).1

theorem pass2_numberOfLevels (f : Bool) (d : ℚ) (s : OCLStation) :
    (pass2BottomDepth f d s).numberOfLevels = s.numberOfLevels :=
  (pass2_preserves f d s).2.1

theorem decodeRest_props (a : Args) (s0 : OCLStation) (prevDb : ℚ)
    (bathy : List ℚ) (inp0 : List Char) (r : DecodeResult)
    (h : decodeRest a s0 prevDb bathy inp0 = some r) :
    r.status = Status.successful ∧
    (a.wantProfileFlag = true →
     r.stn.varListChecksOut = true →
     r.stn.badLatLon = 0 →
     r.stn.latlonInRange = true →
     r.stn.monthInRange = true →
     r.stn.yearInRange = true →
     r.stn.enoughProfileLevels = true →
       r.stn.levels.length = (min r.stn.numberOfLevels MAX_LEVELS).toNat ∧
       r.levelsWarning = decide (MAX_LEVELS < r.stn.numberOfLevels) ∧
       (0 < r.stn.numberOfLevels →
         qltB r.stn.bottomDepthPtr.join
           ((r.stn.levels.getD (r.stn.numberOfLevels - 1).toNat
             levelDefault).depthValue) = false)) := by
  unfold decodeRest at h
  split at h
  next => exact absurd h (by simp)
  next stCC cc inp1 hx1 =>
  dsimp only [] at h
  split at h
  next => exact absurd h (by simp)
  next stCR cr b2 inp2 hx2 =>
  split at h
  next => exact absurd h (by simp)
  next stY yr inp3 hx3 =>
  split at h
  next => exact absurd h (by simp)
  next stM mo inp4 hx4 =>
  split at h
  next => exact absurd h (by simp)
  next stD dy inp5 hx5 =>
  split at h
  next => exact absurd h (by simp)
  next stT tm b6 inp6 hx6 =>
  split at h
  next => exact absurd h (by simp)
  next stLa la b7 inp7 hx7 =>
  split at h
  next => exact absurd h (by simp)
  next stLo lo b8 inp8 hx8 =>
  split at h
  next => exact absurd h (by simp)
  next stNL nl b9 inp9 hx9 =>
  split at h
  next => exact absurd h (by simp)
  next stSty sty inp10 hx10 =>
  split at h
  next => exact absurd h (by simp)
  next stNVC nvc inp11 hx11 =>
  split at h
  next => exact absurd h (by simp)
  next codes errs b12 inp12 hx12 =>
  split at h
  next => exact absurd h (by simp)
  next vPI b13 inp13 hx13 =>
  split at h
  next => exact absurd h (by simp)
  next vSH cntSH entries b14 inp14 hx14 =>
  split at h
  · -- wantsRest true: bio block, profile levels, pass 2
    next hw =>
    split at h
    next => exact absurd h (by simp)
    next vBio b15 inp15 hx15 =>
    split at h
    next => exact absurd h (by simp)
    next lvls b16 inp16 hx16 =>
    simp only [Option.some.injEq] at h
    subst h
    refine ⟨rfl, ?_⟩
    intro hwant hvc hbll hll hmon hyr hep
    have hlen := readLevelsLoop_length _ _ _ _ _ _ _ _ _ hx16
    refine ⟨?_, ?_, ?_⟩
    · simpa only [pass2_levels, pass2_numberOfLevels] using hlen
    · simp only [pass2_numberOfLevels]
    · intro hn
      simp only [pass2_numberOfLevels, pass2_levels] at hn ⊢
      exact pass2_not_shallower a.dbBathyFlag _ _ hn
        (pass1Bathy_shape a.dbBathyFlag la (scanSecHdrCode10 entries) bathy
          prevDb (scanSecHdrCode10_shape entries))
  · -- wantsRest false: contradiction with the filter-flag hypotheses
    next hw =>
    simp only [Option.some.injEq] at h
    subst h
    refine ⟨rfl, ?_⟩
    intro hwant hvc hbll hll hmon hyr hep
    dsimp only at hvc hbll hll hmon hyr hep
    have hrw : ∀ s2 : OCLStation, reallyWantProfile a s2 = true :=
      fun s2 => reallyWantProfile_of_want a s2 hwant
    unfold wantsRest at hw
    simp [hrw, hvc, hbll, hll, hmon, hyr, hep] at hw

/-- Every run of `getOCLStationData` either takes the skip-ahead branch
(after reading only the total-byte field and the native station id) or
delegates to the full decode path. -/
theorem getOCL_cases (a : Args) (st0 : OCLStation) (prevDb : ℚ)
    (bathy : List ℚ) (inp : List Char) (r : DecodeResult)
    (h : getOCLStationData a st0 prevDb bathy inp = some r) :
    ((a.skipFlag && decide (a.stn < a.stnToSkipTo)) = true ∧
      ∃ (st1 st2 : Status) (v1 v2 bA bB : Int) (inpA inpB : List Char),
        getVarlenIntField uninitLong (-1) inp = some (st1, v1, bA, inpA) ∧
        getVarlenIntField uninitLong bA inpA = some (st2, v2, bB, inpB) ∧
        r = ⟨Status.skipped,
             { st0 with
                 bytesLeftInStation := bB
                 bytesInStation := zlfOr st1 0 v1
                 oclStationNumber := zlfOr st2 (-1) v2 },
             false, prevDb, (if a.dbBathyFlag then bathy.drop 1 else bathy),
             skipToNextStation bB inpB⟩) ∨
    ((a.skipFlag && decide (a.stn < a.stnToSkipTo)) = false ∧
      ∃ (sB : OCLStation) (inpB : List Char),
        decodeRest a sB prevDb bathy inpB = some r) := by
  unfold getOCLStationData at h
  split at h
  next => exact absurd h (by simp)
  next st1 v1 bA inpA hx1 =>
  dsimp only [] at h
  split at h
  next => exact absurd h (by simp)
  next st2 v2 bB inpB hx2 =>
  split at h
  next hskip =>
    simp only [Option.some.injEq] at h
    exact Or.inl ⟨hskip, st1, st2, v1, v2, bA, bB, inpA, inpB, hx1, hx2, h.symm⟩
  next hskip =>
    have hskip2 : (a.skipFlag && decide (a.stn < a.stnToSkipTo)) = false := by
      simpa using hskip
    exact Or.inr ⟨hskip2, _, _, h⟩

/-- `getLastD` is the `getD` at the last index. -/
theorem getLastD_eq_getD {α : Type} (l : List α) (d : α) :
    l.getLastD d = l.getD (l.length - 1) d := by
  rw [List.getLastD_eq_getLast?, List.getLast?_eq_getElem?,
    List.getD_eq_getElem?_getD]

/-- A caller-owned struct with all slots zeroed: the previous contents of
`stnData` in the concrete runs below. -/
def stationZero : OCLStation :=
  ⟨-1, 0, 0, 0, 0, 0, 0, 0, none, none, none, 0, 0, 0, [], [], 0, 0, 0, [], 0,
   [], none, '-', false, false, false, false, false, 0⟩

/-- Arguments requesting a full decode with no filters, no skip-ahead and
no bathymetry. -/
def plainArgs : Args :=
  ⟨0, true, false, 0, false, [], false, 0, false, 0, 0, 0, 0, false, 0, 0,
   false, 0, 0, false, false, []⟩

/-- A well-formed 30-content-byte station: one observed profile level whose
depth field is the `'-'` missing marker (decoded as NaN), no variables, no
secondary header. -/
def c2Input : List Char :=
  ("230" ++ "0" ++ "90" ++ "0" ++ "19980615" ++ "-" ++ "1105" ++ "-" ++ "11" ++
   "0" ++ "00" ++ "0" ++ "0" ++ "0" ++ "-" ++ "\n").toList

/-! ## Claim C2: the post-pass-2 bottom depth vs the deepest level -/

/-- C2 counterexample: a fully decoded station with one retained level
whose depth is the missing marker (NaN).  Pass 2 selects that depth
(source `'p'`), and under IEEE comparison the selected value is NOT `>=`
the last decoded level's depth: `qgeB` is false.  This refutes the claim
that the final selection is always `>=` the deepest retained level. -/
theorem c2_counterexample :
    (getOCLStationData plainArgs stationZero 0 [] c2Input).map (fun r =>
      (r.status, r.stn.numberOfLevels, r.stn.levels.length,
       r.stn.bottomDepthSource,
       qgeB r.stn.bottomDepthPtr.join
         ((r.stn.levels.getLastD levelDefault).depthValue))) =
      some (Status.successful, 1, 1, 'p', false) := by decide

/-- C2 (amended): for a fully decoded station whose declared level count
is positive and within `MAX_LEVELS`, the post-pass-2 selection is never
IEEE-strictly-shallower than the last decoded level's depth (`qltB` is
false; with missing/NaN values the `>=` form can fail, the `<` form
cannot). -/
theorem c2_never_shallower (a : Args) (st0 : OCLStation) (prevDb : ℚ)
    (bathy : List ℚ) (inp : List Char) (r : DecodeResult)
    (h : getOCLStationData a st0 prevDb bathy inp = some r)
    (hst : r.status = Status.successful)
    (hwant : a.wantProfileFlag = true)
    (hvc : r.stn.varListChecksOut = true) (hbll : r.stn.badLatLon = 0)
    (hll : r.stn.latlonInRange = true) (hmon : r.stn.monthInRange = true)
    (hyr : r.stn.yearInRange = true) (hep : r.stn.enoughProfileLevels = true)
    (hn : 0 < r.stn.numberOfLevels)
    (hmax : r.stn.numberOfLevels ≤ MAX_LEVELS) :
    qltB r.stn.bottomDepthPtr.join
      ((r.stn.levels.getLastD levelDefault).depthValue) = false := by
  rcases getOCL_cases a st0 prevDb bathy inp r h with
    ⟨hc, st1, st2, v1, v2, bA, bB, inpA, inpB, hx1, hx2, hr⟩ |
    ⟨hc, sB, inpB, hd⟩
  · subst hr; simp at hst
  · have hp := (decodeRest_props a sB prevDb bathy inpB r hd).2 hwant hvc
      hbll hll hmon hyr hep
    have hlen := hp.1
    have hq := hp.2.2 hn
    rw [min_eq_left hmax] at hlen
    rw [getLastD_eq_getD, hlen]
    rwa [show (r.stn.numberOfLevels - 1).toNat =
      r.stn.numberOfLevels.toNat - 1 by omega] at hq

set_option synthInstance.maxSize 512 in
/-- The projections of the concrete `c2Input` run needed to discharge the
hypotheses of the station-level theorems (none of them touches a rational
field, so the proposition evaluates by `decide`). -/
theorem c2Input_run_flags :
    (getOCLStationData plainArgs stationZero 0 [] c2Input).map (fun r =>
      (r.status, r.stn.varListChecksOut, r.stn.badLatLon,
       r.stn.latlonInRange, r.stn.monthInRange, r.stn.yearInRange,
       r.stn.enoughProfileLevels, r.stn.numberOfLevels)) =
      some (Status.successful, true, 0, true, true, true, true, 1) := by
  decide

/-- Witness for C2 (amended) on the concrete one-level station. -/
theorem c2_never_shallower_witness :
    ∃ r, getOCLStationData plainArgs stationZero 0 [] c2Input = some r ∧
      qltB r.stn.bottomDepthPtr.join
        ((r.stn.levels.getLastD levelDefault).depthValue) = false := by
  obtain ⟨r, hr⟩ :
      ∃ r, getOCLStationData plainArgs stationZero 0 [] c2Input = some r :=
    ⟨_, rfl⟩
  have hmap := c2Input_run_flags
  rw [hr] at hmap
  simp only [Option.map_some', Option.some.injEq, Prod.mk.injEq] at hmap
  obtain ⟨h1, h2, h3, h4, h5, h6, h7, h8⟩ := hmap
  exact ⟨r, hr, c2_never_shallower plainArgs stationZero 0 [] c2Input r hr
    h1 rfl h2 h3 h4 h5 h6 h7 (by rw [h8]; decide) (by rw [h8]; decide)⟩

/-! ## Claim C5: variable-code capacity -/

/-- A station declaring 11 variable codes (two-digit field `"11"`), with
11 `(code, error)` entries, no levels. -/
def c5Input : List Char :=
  ("261" ++ "0" ++ "90" ++ "0" ++ "19980615" ++ "-" ++ "1105" ++ "-" ++ "0" ++
   "0" ++ "11" ++ "120120120120120120120120120120120" ++ "0" ++ "0" ++ "0" ++
   "\n").toList

/-- C5: the variable-code loop runs for the full declared two-digit count
with no bound check, so a station declaring 11 variables writes 11
`(varCode, errCodeForVarCode)` pairs although the arrays hold
`MAX_VARS = 10` slots: in C this run writes `varCode[10]` out of bounds.
The decoded pair count equals the declared count, and it exceeds the fixed
capacity. -/
theorem c5_varcode_overflow :
    (getOCLStationData plainArgs stationZero 0 [] c5Input).map (fun r =>
      (r.status, r.stn.numberOfVarCodes, (r.stn.varCode.length : Int),
       (r.stn.errCodeForVarCode.length : Int))) =
      some (Status.successful, 11, 11, 11) ∧ MAX_VARS < 11 := by decide

/-! ## Claim C8: profile-level truncation at MAX_LEVELS -/

/-- C8: in a non-skipped run that reaches the profile section (caller
wants the profile and every filter flag passed), the number of decoded
levels is exactly `min(numberOfLevels, MAX_LEVELS)`, and when the declared
count exceeds `MAX_LEVELS` the stderr diagnostic is emitted; the run is
not aborted. -/
theorem c8_levels_truncation (a : Args) (st0 : OCLStation) (prevDb : ℚ)
    (bathy : List ℚ) (inp : List Char) (r : DecodeResult)
    (h : getOCLStationData a st0 prevDb bathy inp = some r)
    (hst : r.status = Status.successful)
    (hwant : a.wantProfileFlag = true)
    (hvc : r.stn.varListChecksOut = true) (hbll : r.stn.badLatLon = 0)
    (hll : r.stn.latlonInRange = true) (hmon : r.stn.monthInRange = true)
    (hyr : r.stn.yearInRange = true)
    (hep : r.stn.enoughProfileLevels = true) :
    r.stn.levels.length = (min r.stn.numberOfLevels MAX_LEVELS).toNat ∧
    (MAX_LEVELS < r.stn.numberOfLevels → r.levelsWarning = true) := by
  rcases getOCL_cases a st0 prevDb bathy inp r h with
    ⟨hc, st1, st2, v1, v2, bA, bB, inpA, inpB, hx1, hx2, hr⟩ |
    ⟨hc, sB, inpB, hd⟩
  · subst hr; simp at hst
  · have hp := (decodeRest_props a sB prevDb bathy inpB r hd).2 hwant hvc
      hbll hll hmon hyr hep
    refine ⟨hp.1, fun hgt => ?_⟩
    rw [hp.2.1]
    exact decide_eq_true hgt

/-- Witness for C8 on the concrete one-level station (declared count 1,
one level decoded). -/
theorem c8_levels_truncation_witness :
    ∃ r, getOCLStationData plainArgs stationZero 0 [] c2Input = some r ∧
      r.stn.levels.length = (min r.stn.numberOfLevels MAX_LEVELS).toNat := by
  obtain ⟨r, hr⟩ :
      ∃ r, getOCLStationData plainArgs stationZero 0 [] c2Input = some r :=
    ⟨_, rfl⟩
  have hmap := c2Input_run_flags
  rw [hr] at hmap
  simp only [Option.map_some', Option.some.injEq, Prod.mk.injEq] at hmap
  obtain ⟨h1, h2, h3, h4, h5, h6, h7, h8⟩ := hmap
  exact ⟨r, hr, (c8_levels_truncation plainArgs stationZero 0 [] c2Input r hr
    h1 rfl h2 h3 h4 h5 h6 h7).1⟩

/-! ## Claim C9: the skip-ahead path -/

/-- C9: when skip-ahead is requested and the current ordinal is below the
target, the call reads only the total-byte field and the native station
id, opaquely skips the remaining budget, advances the bathymetry stream by
one record exactly when it is enabled, leaves the static database value
untouched, and returns `SKIPPED` with every other struct field untouched;
when the branch is not taken (in particular at the target ordinal) the
call runs the full decode path and returns `SUCCESSFUL`. -/
theorem c9_skip_path (a : Args) (st0 : OCLStation) (prevDb : ℚ)
    (bathy : List ℚ) (inp : List Char) (r : DecodeResult)
    (h : getOCLStationData a st0 prevDb bathy inp = some r) :
    (a.skipFlag = true → a.stn < a.stnToSkipTo →
      r.status = Status.skipped ∧
      r.stn.countryCode = st0.countryCode ∧
      r.stn.cruiseNumber = st0.cruiseNumber ∧
      r.stn.year = st0.year ∧ r.stn.month = st0.month ∧
      r.stn.day = st0.day ∧ r.stn.time = st0.time ∧
      r.stn.lat = st0.lat ∧ r.stn.lon = st0.lon ∧
      r.stn.numberOfLevels = st0.numberOfLevels ∧
      r.stn.stationType = st0.stationType ∧
      r.stn.numberOfVarCodes = st0.numberOfVarCodes ∧
      r.stn.varCode = st0.varCode ∧
      r.stn.errCodeForVarCode = st0.errCodeForVarCode ∧
      r.stn.secHdr = st0.secHdr ∧ r.stn.levels = st0.levels ∧
      r.stn.bottomDepthPtr = st0.bottomDepthPtr ∧
      r.levelsWarning = false ∧
      r.bathyRest = (if a.dbBathyFlag then bathy.drop 1 else bathy) ∧
      r.dbValue = prevDb ∧
      (∃ (st1 st2 : Status) (v1 v2 bA : Int) (inpA inpB : List Char),
        getVarlenIntField uninitLong (-1) inp = some (st1, v1, bA, inpA) ∧
        getVarlenIntField uninitLong bA inpA =
          some (st2, v2, r.stn.bytesLeftInStation, inpB) ∧
        r.inp = skipToNextStation r.stn.bytesLeftInStation inpB)) ∧
    (¬(a.skipFlag = true ∧ a.stn < a.stnToSkipTo) →
      r.status = Status.successful) := by
  rcases getOCL_cases a st0 prevDb bathy inp r h with
    ⟨hc, st1, st2, v1, v2, bA, bB, inpA, inpB, hx1, hx2, hr⟩ |
    ⟨hc, sB, inpB, hd⟩
  · constructor
    · intro _ _
      subst hr
      refine ⟨rfl, rfl, rfl, rfl, rfl, rfl, rfl, rfl, rfl, rfl, rfl, rfl,
        rfl, rfl, rfl, rfl, rfl, rfl, rfl, rfl, ?_⟩
      exact ⟨st1, st2, v1, v2, bA, inpA, inpB, hx1, hx2, rfl⟩
    · intro hn
      rw [Bool.and_eq_true, decide_eq_true_eq] at hc
      exact absurd ⟨hc.1, hc.2⟩ hn
  · constructor
    · intro hs hlt
      rw [hs] at hc
      simp [hlt] at hc
    · intro _
      exact (decodeRest_props a sB prevDb bathy inpB r hd).1

/-- Witness for C9: skip-ahead past the simple concrete station. -/
theorem c9_skip_path_witness :
    ∃ r, getOCLStationData
        { plainArgs with skipFlag := true, stnToSkipTo := 5 }
        stationZero 0 [] c2Input = some r ∧
      r.status = Status.skipped ∧ r.stn.levels = stationZero.levels := by
  have hs : (getOCLStationData
      { plainArgs with skipFlag := true, stnToSkipTo := 5 }
      stationZero 0 [] c2Input).isSome = true := by decide
  refine ⟨_, (Option.some_get hs).symm, ?_, ?_⟩
  · exact ((c9_skip_path _ stationZero 0 [] c2Input _
      (Option.some_get hs).symm).1 rfl (by decide)).1
  · exact ((c9_skip_path _ stationZero 0 [] c2Input _
      (Option.some_get hs).symm).1 rfl (by decide)).2.2.2.2.2.2.2.2.2.2.2.2.2.2.2.1

/-! ## Claim C1: byte accounting over well-formed stations

A well-formed station is described by `StationEnc` and serialised by
`encStation` (continuation style: `enc… x k` prepends the field's bytes to
`k`).  The serialisation contains no line-terminator bytes, so its length
is exactly its content-byte count.  Well-formedness (`StationEnc.wf`)
requires every field to be in the format the decoder expects and the
declared total-byte field to equal the serialisation's length. -/

/-- A serialised byte that is not a line terminator. -/
def charOk (c : Char) : Bool := !(isNl c)

/-- A var-length integer field: either the zero-length "missing" encoding
(`"0"`) or a length digit followed by that many digits. -/
inductive VIntEnc where
  | missing
  | val (ds : List Char)
deriving DecidableEq

def encVInt : VIntEnc → List Char → List Char
  | .missing, k => '0' :: k
  | .val ds, k => Nat.digitChar ds.length :: (ds ++ k)

def VIntEnc.wf : VIntEnc → Bool
  | .missing => true
  | .val ds => ds.all Char.isDigit && decide (1 ≤ ds.length) &&
      decide (ds.length ≤ 9)

/-- Content bytes of a var-length integer field. -/
def vintLen : VIntEnc → Nat
  | .missing => 1
  | .val ds => 1 + ds.length

/-- The struct value a var-length int field decodes to, with `dflt` for
the missing encoding (the caller's `zlfOr` default). -/
def vintValue : VIntEnc → Int → Int
  | .missing, dflt => dflt
  | .val ds, _ => (digitsToNat ds : Int)

/-- The digits of a present var-length float field: significant-digits
control, implied-precision control, and the content digits (the
total-digits control is the content length). -/
structure FEnc where
  sig : Char
  prec : Char
  ds : List Char
deriving DecidableEq

def FEnc.wf (f : FEnc) : Bool :=
  f.sig.isDigit && f.prec.isDigit && f.ds.all Char.isDigit &&
    decide (1 ≤ f.ds.length) && decide (f.ds.length ≤ 9)

/-- A var-length float field: `'-'` (missing) or the three controls plus
content digits. -/
inductive FFEnc where
  | missing
  | val (f : FEnc)
deriving DecidableEq

def encFF : FFEnc → List Char → List Char
  | .missing, k => '-' :: k
  | .val f, k => f.sig :: Nat.digitChar f.ds.length :: f.prec :: (f.ds ++ k)

def FFEnc.wf : FFEnc → Bool
  | .missing => true
  | .val f => f.wf

def ffLen : FFEnc → Nat
  | .missing => 1
  | .val f => 3 + f.ds.length

/-- One `(varCode, errCodeForVarCode)` entry. -/
structure VarEntryEnc where
  code : VIntEnc
  err : Char
deriving DecidableEq

def VarEntryEnc.wf (v : VarEntryEnc) : Bool := v.code.wf && v.err.isDigit

def encVars : List VarEntryEnc → List Char → List Char
  | [], k => k
  | v :: t, k => encVInt v.code (v.err :: encVars t k)

def varsLen : List VarEntryEnc → Nat
  | [] => 0
  | v :: t => vintLen v.code + 1 + varsLen t

/-- A skipped block (character/PI data, biological header): absent
(zero-length length field) or a length field plus that many content
bytes. -/
inductive BlockEnc where
  | absent
  | present (lenDs : List Char) (content : List Char)
deriving DecidableEq

def encBlock : BlockEnc → List Char → List Char
  | .absent, k => '0' :: k
  | .present lenDs content, k =>
      Nat.digitChar lenDs.length :: (lenDs ++ (content ++ k))

def BlockEnc.wf : BlockEnc → Bool
  | .absent => true
  | .present lenDs content =>
      lenDs.all Char.isDigit && decide (1 ≤ lenDs.length) &&
        decide (lenDs.length ≤ 9) &&
        decide (digitsToNat lenDs = content.length) && content.all charOk

def blockLen : BlockEnc → Nat
  | .absent => 1
  | .present lenDs content => 1 + lenDs.length + content.length

/-- One secondary-header entry: code (var-length int) and value
(var-length float). -/
structure SecEntryEnc where
  code : VIntEnc
  value : FFEnc
deriving DecidableEq

def SecEntryEnc.wf (e : SecEntryEnc) : Bool := e.code.wf && e.value.wf

def encSecEntries : List SecEntryEnc → List Char → List Char
  | [], k => k
  | e :: t, k => encVInt e.code (encFF e.value (encSecEntries t k))

def secEntriesLen : List SecEntryEnc → Nat
  | [] => 0
  | e :: t => vintLen e.code + ffLen e.value + secEntriesLen t

/-- The secondary-header section: absent, or byte-count field plus
entry-count field plus the entries. -/
inductive SecHdrEnc where
  | absent
  | present (bytesDs countDs : List Char) (entries : List SecEntryEnc)
deriving DecidableEq

def encSecHdr : SecHdrEnc → List Char → List Char
  | .absent, k => '0' :: k
  | .present bytesDs countDs entries, k =>
      Nat.digitChar bytesDs.length ::
        (bytesDs ++ (Nat.digitChar countDs.length ::
          (countDs ++ encSecEntries entries k)))

def SecHdrEnc.wf : SecHdrEnc → Bool
  | .absent => true
  | .present bytesDs countDs entries =>
      bytesDs.all Char.isDigit && decide (1 ≤ bytesDs.length) &&
        decide (bytesDs.length ≤ 9) &&
        countDs.all Char.isDigit && decide (1 ≤ countDs.length) &&
        decide (countDs.length ≤ 9) &&
        decide (digitsToNat countDs = entries.length) &&
        entries.all SecEntryEnc.wf

def secHdrLen : SecHdrEnc → Nat
  | .absent => 1
  | .present bytesDs countDs entries =>
      1 + bytesDs.length + 1 + countDs.length + secEntriesLen entries

/-- A profile value-plus-error slot: missing (`'-'`, no error byte) or a
float field followed by a one-digit error code. -/
def encValErr : Option (FEnc × Char) → List Char → List Char
  | none, k => '-' :: k
  | some (f, e), k => encFF (.val f) (e :: k)

def valErrWf : Option (FEnc × Char) → Bool
  | none => true
  | some (f, e) => f.wf && e.isDigit

def valErrLen : Option (FEnc × Char) → Nat
  | none => 1
  | some (f, _) => 3 + f.ds.length + 1

def encLevelVars : List (Option (FEnc × Char)) → List Char → List Char
  | [], k => k
  | v :: t, k => encValErr v (encLevelVars t k)

def levelVarsLen : List (Option (FEnc × Char)) → Nat
  | [] => 0
  | v :: t => valErrLen v + levelVarsLen t

/-- One profile level: the depth slot (emitted only for observed-level
stations) and one value slot per declared variable. -/
structure LevelEnc where
  depth : Option (FEnc × Char)
  vars : List (Option (FEnc × Char))
deriving DecidableEq

def encLevel (obs : Bool) (lv : LevelEnc) (k : List Char) : List Char :=
  if obs then encValErr lv.depth (encLevelVars lv.vars k)
  else encLevelVars lv.vars k

def levelLen (obs : Bool) (lv : LevelEnc) : Nat :=
  (if obs then valErrLen lv.depth else 0) + levelVarsLen lv.vars

def encLevels (obs : Bool) : List LevelEnc → List Char → List Char
  | [], k => k
  | lv :: t, k => encLevel obs lv (encLevels obs t k)

def levelsLen (obs : Bool) : List LevelEnc → Nat
  | [] => 0
  | lv :: t => levelLen obs lv + levelsLen obs t

def LevelEnc.wf (nvars : Nat) (obs : Bool) (lv : LevelEnc) : Bool :=
  (!obs || valErrWf lv.depth) && lv.vars.all valErrWf &&
    decide (lv.vars.length = nvars)

/-- A well-formed station description. -/
structure StationEnc where
  totalDs : List Char
  oclStationNumber : VIntEnc
  countryCode : List Char
  cruiseNumber : VIntEnc
  yearDs : List Char
  monthDs : List Char
  dayDs : List Char
  timeF : FFEnc
  latF : FFEnc
  lonF : FFEnc
  numberOfLevels : VIntEnc
  stationType : Char
  numVarDs : List Char
  vars : List VarEntryEnc
  charPI : BlockEnc
  secHdr : SecHdrEnc
  bioHdr : BlockEnc
  obsFlag : Bool
  levels : List LevelEnc

/-- The station bytes after the total-byte field and the native station
id: country code onwards (the part read by `decodeRest`). -/
def encHdr2 (d : StationEnc) (k : List Char) : List Char :=
  d.countryCode ++
    encVInt d.cruiseNumber
      (d.yearDs ++ (d.monthDs ++ (d.dayDs ++
        encFF d.timeF
          (encFF d.latF
            (encFF d.lonF
              (encVInt d.numberOfLevels
                (d.stationType :: (d.numVarDs ++
                  encVars d.vars
                    (encBlock d.charPI
                      (encSecHdr d.secHdr
                        (encBlock d.bioHdr
                          (encLevels d.obsFlag d.levels k))))))))))))

def hdr2Len (d : StationEnc) : Nat :=
  d.countryCode.length + vintLen d.cruiseNumber + d.yearDs.length +
    d.monthDs.length + d.dayDs.length + ffLen d.timeF + ffLen d.latF +
    ffLen d.lonF + vintLen d.numberOfLevels + 1 + d.numVarDs.length +
    varsLen d.vars + blockLen d.charPI + secHdrLen d.secHdr +
    blockLen d.bioHdr + levelsLen d.obsFlag d.levels

/-- The full station serialisation: total-byte field, native station id,
then the rest. -/
def encStation (d : StationEnc) (k : List Char) : List Char :=
  encVInt (.val d.totalDs) (encVInt d.oclStationNumber (encHdr2 d k))

def stationLen (d : StationEnc) : Nat :=
  1 + d.totalDs.length + vintLen d.oclStationNumber + hdr2Len d

/-- Well-formedness of a station description: every field in decodable
format, the cross-field count constraints, and the declared total equal to
the serialised content length. -/
def StationEnc.wf (d : StationEnc) : Bool :=
  d.totalDs.all Char.isDigit && decide (1 ≤ d.totalDs.length) &&
    decide (d.totalDs.length ≤ 9) &&
    d.countryCode.all Char.isDigit && decide (d.countryCode.length = 2) &&
    d.oclStationNumber.wf && d.cruiseNumber.wf &&
    d.yearDs.all Char.isDigit && decide (d.yearDs.length = 4) &&
    d.monthDs.all Char.isDigit && decide (d.monthDs.length = 2) &&
    d.dayDs.all Char.isDigit && decide (d.dayDs.length = 2) &&
    d.timeF.wf && d.latF.wf && d.lonF.wf &&
    d.numberOfLevels.wf && d.stationType.isDigit &&
    d.numVarDs.all Char.isDigit && decide (d.numVarDs.length = 2) &&
    d.vars.all VarEntryEnc.wf &&
    decide (digitsToNat d.numVarDs = d.vars.length) &&
    d.charPI.wf && d.secHdr.wf && d.bioHdr.wf &&
    decide (d.obsFlag = decide (parseLd [d.stationType] uninitLong = 0)) &&
    d.levels.all (LevelEnc.wf (digitsToNat d.numVarDs) d.obsFlag) &&
    decide ((vintValue d.numberOfLevels 0).toNat = d.levels.length) &&
    decide (digitsToNat d.totalDs = stationLen d)
